import Mathlib

/-!
Shallow embedding of the swechain MCP server (src/swechain-mcp-server.go).

The program shells out to an external `swechaind` binary, decodes its JSON
output into loosely-typed records, and aggregates auctions, bids and
token-holder data into summary responses.  The embedding models:

* the Go string primitives the code uses (`strings.TrimSpace`,
  `strconv.Atoi`, `fmt.Sprintf("%v", ·)` on decoded JSON values);
* the retrying command runner `runCommand` (the external process is an
  oracle `Nat → AttemptResult` giving each attempt's outcome; wall-clock
  sleeping becomes an accumulated count of slept seconds);
* the paginated fetcher `fetchPaginatedData` (the external query is an
  oracle `Nat → PageResult` from page offset to that page's decoded
  outcome; the model additionally records the list of offsets actually
  requested, one per `runCommand` invocation, so that claims about the
  number and order of subprocess calls are statable);
* the record parsers, the aggregation `buildAuctionSummaryResponse`, and
  the handlers the claims mention, each parameterised by its subprocess
  outcomes.

Go `int` is modelled as `Int` with `strconv.Atoi` clamping to the int64
range exactly as the library does.  Byte-level Go details that the claims
do not exercise are noted at each definition.
-/

namespace Swechain

/-! ## Constants (the Go source's `const` block) -/

def pageLimit : Nat := 50
def maxPages : Nat := 10
def maxRetries : Nat := 3

/-! ## Go string primitives -/

/-- Unicode white space as `strings.TrimSpace` recognises it, restricted to
the code points below U+0100 (space, `\t`, `\n`, `\v`, `\f`, `\r`, NEL,
NBSP); the claims exercise only these. -/
def goIsSpace (c : Char) : Bool :=
  c == ' ' || c == '\t' || c == '\n' || c.toNat == 11 || c.toNat == 12 ||
  c == '\r' || c.toNat == 0x85 || c.toNat == 0xA0

/-- Model of `strings.TrimSpace`: drop white space from both ends. -/
def trimSpace (s : String) : String :=
  ⟨((s.toList.dropWhile goIsSpace).reverse.dropWhile goIsSpace).reverse⟩

/-- Model of `isValidCosmosAddress` (lines 240–243): trim, then require the
`"cosmos1"` prefix (`strings.HasPrefix`, rendered as a character-list
prefix test) and a byte length between 39 and 45 inclusive (Go's `len`
counts bytes; `String.utf8ByteSize` is its exact analogue). -/
def isValidCosmosAddress (addr : String) : Bool :=
  let a := trimSpace addr
  "cosmos1".toList.isPrefixOf a.toList &&
    decide (39 ≤ a.utf8ByteSize) && decide (a.utf8ByteSize ≤ 45)

def int64Max : Int := 9223372036854775807
def int64Min : Int := -9223372036854775808

/-- The sign and digit body `strconv.Atoi` sees: an optional leading `+`
or `-` (the flag records a leading minus) followed by the remaining
characters. -/
def atoiSplit (s : String) : Bool × List Char :=
  match s.toList with
  | '+' :: rest => (false, rest)
  | '-' :: rest => (true, rest)
  | cs => (false, cs)

/-- Model of `strconv.Atoi s`, returning `(value, ok)`.  A syntactically
valid input is an optional sign followed by one or more ASCII digits; on a
syntax error Atoi returns `(0, err)`, and on overflow it returns the value
clamped to the int64 range together with `ErrRange`.  `ok = false` models
`err ≠ nil`. -/
def goAtoi (s : String) : Int × Bool :=
  let neg := (atoiSplit s).1
  let body := (atoiSplit s).2
  if body.isEmpty || !body.all Char.isDigit then (0, false)
  else
    let n : Nat := body.foldl (fun acc c => acc * 10 + (c.toNat - 48)) 0
    let v : Int := if neg then -(n : Int) else (n : Int)
    if v < int64Min then (int64Min, false)
    else if int64Max < v then (int64Max, false)
    else (v, true)

/-- Model of `strings.ToLower`, ASCII case folding (the inputs the code
lowercases — the `auctionId` argument and auction statuses — are ASCII). -/
def goToLower (s : String) : String := ⟨s.toList.map Char.toLower⟩

/-! ## Decoded JSON values

`json.Unmarshal` into `interface{}` produces `nil`, `bool`, `float64`,
`string`, `[]interface{}` or `map[string]interface{}`.  `vnum` carries the
string `fmt` prints for the number (the `%g`-style rendering), since every
use in the source goes through `fmt.Sprintf("%v", ·)`. -/

inductive GoVal where
  | vnull : GoVal
  | vbool (b : Bool) : GoVal
  | vnum (display : String) : GoVal
  | vstr (s : String) : GoVal
  | varr (elems : List GoVal) : GoVal
  | vmap (fields : List (String × GoVal)) : GoVal

/-- Insertion step for sorting a map's printed fields by key (Go's `fmt`
prints map keys in sorted order). -/
def insertPair (kv : String × String) : List (String × String) → List (String × String)
  | [] => [kv]
  | h :: t => if kv.1 ≤ h.1 then kv :: h :: t else h :: insertPair kv t

def sortPairs : List (String × String) → List (String × String)
  | [] => []
  | h :: t => insertPair h (sortPairs t)

mutual

/-- Model of `fmt.Sprintf("%v", x)` on a decoded JSON value: `nil` prints
`"<nil>"`, booleans print `true`/`false`, numbers print their carried
rendering, strings print verbatim, slices print space-separated in
brackets, maps print `map[k:v ...]` with keys sorted. -/
def goStringify : GoVal → String
  | .vnull => "<nil>"
  | .vbool b => if b then "true" else "false"
  | .vnum d => d
  | .vstr s => s
  | .varr es => "[" ++ String.intercalate " " (goStringifyList es) ++ "]"
  | .vmap fs =>
      "map[" ++
        String.intercalate " "
          ((sortPairs (goStringifyFields fs)).map (fun kv => kv.1 ++ ":" ++ kv.2)) ++
        "]"

def goStringifyList : List GoVal → List String
  | [] => []
  | v :: vs => goStringify v :: goStringifyList vs

def goStringifyFields : List (String × GoVal) → List (String × String)
  | [] => []
  | kv :: fs => (kv.1, goStringify kv.2) :: goStringifyFields fs

end

/-- A decoded JSON object (`map[string]interface{}`), as an association
list. -/
def RawObj : Type := List (String × GoVal)

/-- Model of Go map indexing `raw[k]` on a decoded object: an absent key
yields the zero `interface{}` value, which `%v` prints as `"<nil>"`. -/
def lookupGo (r : RawObj) (k : String) : GoVal :=
  match r.find? (fun kv => kv.1 == k) with
  | some kv => kv.2
  | none => .vnull

/-! ## Domain records (the Go structs) -/

structure Auction where
  ID : Int
  Issue : String
  Description : String
  Status : String
  Winner : String
  Creator : String
deriving DecidableEq

structure Bid where
  AuctionID : Int
  Amount : String
  Description : String
  Creator : String
  Bidder : String
deriving DecidableEq

structure DenomBalance where
  Amount : String
  Denom : String
deriving DecidableEq

structure DenomOwner where
  Address : String
  Balance : DenomBalance
deriving DecidableEq

structure Balance where
  Denom : String
  Amount : String
deriving DecidableEq

structure Key where
  Name : String
  Address : String
deriving DecidableEq

structure BidDetail where
  Bidder : String
  Amount : String
  Description : String
deriving DecidableEq

structure AuctionDetail where
  AuctionID : Int
  Issue : String
  Creator : String
  Description : String
  Status : String
  Winner : String
  CurrentBidAmount : String
  Bids : List BidDetail
deriving DecidableEq

structure ParticipantDetail where
  Name : String
  Address : String
  Balance : String
deriving DecidableEq

structure AuctionSummaryResponse where
  Summary : String
  Auctions : List AuctionDetail
  Participants : List ParticipantDetail
deriving DecidableEq

/-! ## Record parsers (lines 1139–1174) -/

/-- Model of `parseAuctions`: each raw record's `id` field is stringified
with `%v` and parsed best-effort by `Atoi` with the error discarded
(`id, _ := strconv.Atoi(idStr)`); every other field is stringified. -/
def parseAuctions (rawData : List RawObj) : List Auction :=
  rawData.map (fun raw =>
    { ID := (goAtoi (goStringify (lookupGo raw "id"))).1
      Issue := goStringify (lookupGo raw "issue")
      Description := goStringify (lookupGo raw "description")
      Status := goStringify (lookupGo raw "status")
      Winner := goStringify (lookupGo raw "winner")
      Creator := goStringify (lookupGo raw "creator") })

/-- Model of `parseBids`, the same shape over the bid fields. -/
def parseBids (rawData : List RawObj) : List Bid :=
  rawData.map (fun raw =>
    { AuctionID := (goAtoi (goStringify (lookupGo raw "auctionId"))).1
      Amount := goStringify (lookupGo raw "amount")
      Description := goStringify (lookupGo raw "description")
      Creator := goStringify (lookupGo raw "creator")
      Bidder := goStringify (lookupGo raw "bidder") })

/-! ## Aggregation (lines 969–1044) -/

/-- Model of `extractNameFromAddress`: Go tests `len(address) >= 12` and
slices bytes `address[7:12]`; the model measures and slices characters,
which coincides on the ASCII addresses the chain produces. -/
def extractNameFromAddress (address : String) : String :=
  if 12 ≤ address.length then ⟨(address.toList.drop 7).take 5⟩
  else address

/-- The inner loop of `buildAuctionSummaryResponse` over the bid list for
one auction: collects matching bids in scan order and overwrites
`currentBidAmount` (initially `"0token"`) with each match's amount, so the
last match wins. -/
def collectBids (auction : Auction) (bids : List Bid) : List BidDetail × String :=
  bids.foldl
    (fun acc bid =>
      if bid.AuctionID = auction.ID then
        (acc.1 ++ [⟨bid.Bidder, bid.Amount, bid.Description⟩], bid.Amount)
      else acc)
    ([], "0token")

/-- Model of `buildAuctionSummaryResponse` (lines 969–1037). -/
def buildAuctionSummaryResponse (auctions : List Auction) (bids : List Bid)
    (owners : List DenomOwner) (auctionType : String) : AuctionSummaryResponse :=
  let auctionDetails : List AuctionDetail := auctions.map (fun auction =>
    let collected := collectBids auction bids
    { AuctionID := auction.ID
      Issue := auction.Issue
      Creator := auction.Creator
      Description := auction.Description
      Status := auction.Status
      Winner := auction.Winner
      CurrentBidAmount := collected.2
      Bids := collected.1 })
  let participants : List ParticipantDetail := owners.map (fun owner =>
    { Name := extractNameFromAddress owner.Address
      Address := owner.Address
      Balance := owner.Balance.Amount ++ " " ++ owner.Balance.Denom })
  let summary : String :=
    if auctionType = "open" then
      let bidCount := auctionDetails.countP (fun detail => decide (0 < detail.Bids.length))
      if auctions.length = 0 then "No open auctions found."
      else
        "There are " ++ toString auctions.length ++ " open auctions (" ++
          toString bidCount ++ " with bids, " ++
          toString (auctions.length - bidCount) ++ " without bids)."
    else
      "There are " ++ toString auctions.length ++ " total auctions with " ++
        toString bids.length ++ " total bids."
  { Summary := summary
    Auctions := auctionDetails
    Participants := participants }

/-! ## The retrying command runner (lines 201–237)

The external process is an oracle `attempts : Nat → AttemptResult` giving
the outcome of the i-th attempt (0-based).  Wall-clock sleeping becomes an
accumulated count of slept seconds, so the model returns the Go function's
result together with the total delay inserted. -/

inductive AttemptResult where
  | success (stdout : String)
  | failure (err : String)

def AttemptResult.isFailure : AttemptResult → Bool
  | .success _ => false
  | .failure _ => true

/-- The retry loop of `runCommand`: attempt `i`; on exit code zero return
the stdout trimmed of surrounding white space; otherwise remember the
composite error and, unless this was the last attempt, sleep `i+1` seconds
(`time.Sleep(time.Duration(i+1) * time.Second)`) before retrying. -/
def runCommandLoop (attempts : Nat → AttemptResult) (i : Nat) (lastErr : String)
    (slept : Nat) : Except String String × Nat :=
  if _h : i < maxRetries then
    match attempts i with
    | .success out => (.ok (trimSpace out), slept)
    | .failure msg =>
        if i < maxRetries - 1 then
          runCommandLoop attempts (i + 1) msg (slept + (i + 1))
        else
          runCommandLoop attempts (i + 1) msg slept
  else (.error lastErr, slept)
termination_by maxRetries - i
decreasing_by all_goals (simp [maxRetries] at *; omega)

/-- Model of `runCommand`: run the loop from attempt 0 with no last error
and no sleep yet.  `.ok` carries the trimmed stdout of the succeeding
attempt; `.error` carries the last attempt's composite error. -/
def runCommand (attempts : Nat → AttemptResult) : Except String String × Nat :=
  runCommandLoop attempts 0 "" 0

/-! ## The paginated fetcher (lines 1046–1087)

One loop iteration performs exactly one `runCommand` invocation at the
current page offset.  The oracle `pages : Nat → PageResult` gives, per
offset, the decoded outcome of that invocation: a command error after
retries, output that `json.Unmarshal` rejects, or a decoded object whose
`dataKey` entry is absent / not an array (`doc none`) or is an array of
elements (`doc (some l)`).  Array elements that are not JSON objects are
skipped by the accumulation loop (`result.(map[string]interface{})`). -/

inductive RawElem where
  | obj (r : RawObj)
  | nonObj

def RawElem.obj? : RawElem → Option RawObj
  | .obj r => some r
  | .nonObj => none

inductive PageResult where
  | cmdErr
  | malformed
  | doc (results : Option (List RawElem))

/-- Whether a page outcome lets the loop continue to the next offset. -/
def PageResult.continues : PageResult → Bool
  | .doc (some results) => !results.isEmpty
  | _ => false

/-- The records a page outcome contributes (the object elements, in
order). -/
def PageResult.objs : PageResult → List RawObj
  | .doc (some results) => results.filterMap RawElem.obj?
  | _ => []

/-- The fetch loop of `fetchPaginatedData`: while `offset/pageLimit <
maxPages`, fetch the page at `offset`; stop on a command error, on
undecodable output, or when the `dataKey` array is absent or empty;
otherwise append the page's object records and advance the offset by
`pageLimit`.  Alongside the Go function's accumulated records the model
returns the list of offsets actually requested, one per `runCommand`
invocation. -/
def fetchLoop (pages : Nat → PageResult) (offset : Nat) (acc : List RawObj)
    (trace : List Nat) : List RawObj × List Nat :=
  if _h : offset / pageLimit < maxPages then
    match pages offset with
    | .cmdErr => (acc, trace ++ [offset])
    | .malformed => (acc, trace ++ [offset])
    | .doc none => (acc, trace ++ [offset])
    | .doc (some results) =>
        if results.length = 0 then (acc, trace ++ [offset])
        else
          fetchLoop pages (offset + pageLimit) (acc ++ results.filterMap RawElem.obj?)
            (trace ++ [offset])
  else (acc, trace)
termination_by pageLimit * maxPages - offset
decreasing_by all_goals (simp [pageLimit, maxPages] at *; omega)

/-- `fetchPaginatedData` instrumented with the offsets requested. -/
def fetchPaginatedDataT (pages : Nat → PageResult) : List RawObj × List Nat :=
  fetchLoop pages 0 [] []

/-- Model of `fetchPaginatedData`: the accumulated records. -/
def fetchPaginatedData (pages : Nat → PageResult) : List RawObj :=
  (fetchPaginatedDataT pages).1

/-! ## Single-shot query helpers (lines 895–967, 1089–1137) -/

/-- The decoded outcome of one non-paginated query command: a command
error after retries, output `json.Unmarshal` rejects, or a decoded JSON
object. -/
inductive DocResult where
  | cmdErr (e : String)
  | malformed
  | doc (fields : RawObj)

/-- The outcome of the `keys list` command, which is unmarshalled directly
into a `[]Key`: `malformed` stands for output that fails to decode as that
slice. -/
inductive KeysResult where
  | cmdErr (e : String)
  | malformed
  | keys (ks : List Key)

/-- Model of `getKeys` (lines 953–967): a command error or a parse error
is logged and yields the empty key list. -/
def getKeys : KeysResult → List Key
  | .cmdErr _ => []
  | .malformed => []
  | .keys ks => ks

/-- The errors `getAddressForKey` returns, one per `return` site (each
wraps or formats a message in the Go code). -/
inductive GetAddrError where
  | cmdFailed (e : String)
  | parseFailed
  | addressMissing
  | invalidFormat (a : String)
deriving DecidableEq

/-- Model of `getAddressForKey` (lines 895–916): unlike the collection
queries, every failure — command error, undecodable output, missing or
non-string `address` field, invalid address format — is returned to the
caller as an explicit error. -/
def getAddressForKey : DocResult → Except GetAddrError String
  | .cmdErr e => .error (.cmdFailed e)
  | .malformed => .error .parseFailed
  | .doc fields =>
      match lookupGo fields "address" with
      | .vstr address =>
          if isValidCosmosAddress address then .ok address
          else .error (.invalidFormat address)
      | _ => .error .addressMissing

/-- Model of `fetchDenomOwners` (lines 1089–1137): a command error, a
parse error, or a missing/non-array `denom_owners` entry yields the empty
list; elements that are not objects, or lack an object `balance` field,
are skipped. -/
def fetchDenomOwners : DocResult → List DenomOwner
  | .cmdErr _ => []
  | .malformed => []
  | .doc fields =>
      match lookupGo fields "denom_owners" with
      | .varr raws =>
          raws.filterMap (fun raw =>
            match raw with
            | .vmap rawMap =>
                match lookupGo rawMap "balance" with
                | .vmap balanceRaw =>
                    some { Address := goStringify (lookupGo rawMap "address")
                           Balance := { Amount := goStringify (lookupGo balanceRaw "amount")
                                        Denom := goStringify (lookupGo balanceRaw "denom") } }
                | _ => none
            | _ => none)
      | _ => []

/-- Model of `getBalanceForAddress` (lines 918–951): command and parse
errors are returned to the caller; a missing or non-array `balances` entry
yields the empty balance list; non-object elements are skipped. -/
def getBalanceForAddress : DocResult → Except String (List Balance)
  | .cmdErr e => .error ("failed to query balance: " ++ e)
  | .malformed => .error "failed to parse balance data"
  | .doc fields =>
      match lookupGo fields "balances" with
      | .varr raws =>
          .ok (raws.filterMap (fun raw =>
            match raw with
            | .vmap rawMap =>
                some { Amount := goStringify (lookupGo rawMap "amount")
                       Denom := goStringify (lookupGo rawMap "denom") }
            | _ => none))
      | _ => .ok []

/-! ## Handlers (the ones the claims mention)

Each handler is parameterised by the outcomes of the subprocess commands
it may run, and — where a claim is about subprocess calls — returns the
number of `runCommand` invocations it performed alongside its textual
result.  Success payloads are modelled structurally (summary string plus
details) rather than as serialised JSON. -/

/-- What `getBalanceHandler` puts in the text it returns: an error
message, or the `BalanceResponse` it marshals. -/
structure BalanceResponse where
  Summary : String
  Address : String
  Balances : List Balance
deriving DecidableEq

inductive BalanceOut where
  | errText (t : String)
  | response (r : BalanceResponse)
deriving DecidableEq

/-- Model of `getBalanceHandler` (lines 356–403): trim and validate the
address, fetch the balances, and summarise.  `totalBalance`/`denom`
default to `"0"`/`"token"` and are overwritten by the first balance entry
when the list is non-empty; the details carry the address and the full
balance list. -/
def getBalanceHandler (fetch : DocResult) (address0 : String) : BalanceOut :=
  let address := trimSpace address0
  if address = "" then
    .errText "Error: address parameter is required and cannot be empty."
  else if !isValidCosmosAddress address then
    .errText "Error: address must be a valid cosmos address (cosmos1...)."
  else
    match getBalanceForAddress fetch with
    | .error e => .errText ("Error getting balance for address " ++ address ++ ": " ++ e)
    | .ok balances =>
        let first : String × String :=
          match balances with
          | [] => ("0", "token")
          | b :: _ => (b.Amount, b.Denom)
        .response
          { Summary := "Address " ++ address ++ " has " ++ first.1 ++ " " ++ first.2
            Address := address
            Balances := balances }

inductive BidsQueryResult where
  | errText (t : String)
  | response (summary : String) (bids : List Bid)
deriving DecidableEq

structure BidsQueryOut where
  Result : BidsQueryResult
  RunCommandCalls : Nat
deriving DecidableEq

/-- Model of `queryBidsForAuctionHandler` (lines 451–500).  The empty
check precedes everything; then the handler fetches the full bid list via
`fetchPaginatedData` (each requested page offset is one `runCommand`
invocation, counted in `RunCommandCalls`); only after that fetch does it
parse a non-`"all"` `auctionId` with `strconv.Atoi` and either report the
invalid-id error or filter the bids. -/
def queryBidsForAuctionHandler (pages : Nat → PageResult) (auctionId0 : String) :
    BidsQueryOut :=
  let auctionId := trimSpace auctionId0
  if auctionId = "" then
    ⟨.errText "Error: auctionId parameter is required. Use specific auction ID or 'all' for all bids.", 0⟩
  else
    let fetched := fetchPaginatedDataT pages
    let calls := fetched.2.length
    let bids := parseBids fetched.1
    if goToLower auctionId ≠ "all" then
      let parsed := goAtoi auctionId
      if !parsed.2 then
        ⟨.errText ("Error: invalid auctionId '" ++ auctionId ++ "'. Must be a number or 'all'."),
          calls⟩
      else
        let filteredBids := bids.filter (fun bid => bid.AuctionID = parsed.1)
        ⟨.response ("Found " ++ toString filteredBids.length ++ " bids for auction " ++ auctionId)
          filteredBids, calls⟩
    else
      ⟨.response ("Found " ++ toString bids.length ++ " total bids across all auctions") bids,
        calls⟩

/-- The arguments of `create-bid`. -/
structure CreateBidParams where
  AuctionId : String
  Bidder : String
  Amount : String
  Description : String
  From : String
deriving DecidableEq

structure CreateBidOut where
  Text : String
  RunCommandCalls : Nat
deriving DecidableEq

/-- Model of `createBidHandler` (lines 629–707): every validation — the
empty checks on `auctionId`, `bidder`, `from`, the address checks on
`bidder` and `from`, and the numeric check on `auctionId` — happens before
the single `runCommand` invocation that submits the transaction.  `tx` is
that invocation's outcome. -/
def createBidHandler (tx : AttemptResult) (params : CreateBidParams) : CreateBidOut :=
  let auctionId := trimSpace params.AuctionId
  let bidder := trimSpace params.Bidder
  let fromAddr := trimSpace params.From
  if auctionId = "" then
    ⟨"Error: 'auctionId' parameter is required.", 0⟩
  else if bidder = "" then
    ⟨"Error: 'bidder' parameter is required.", 0⟩
  else if fromAddr = "" then
    ⟨"Error: 'from' parameter is required.", 0⟩
  else if !isValidCosmosAddress bidder then
    ⟨"Error: 'bidder' must be a valid cosmos address (cosmos1...).", 0⟩
  else if !isValidCosmosAddress fromAddr then
    ⟨"Error: 'from' must be a valid cosmos address (cosmos1...).", 0⟩
  else if !(goAtoi auctionId).2 then
    ⟨"Error: 'auctionId' must be a valid number.", 0⟩
  else
    match runCommand (fun _ => tx) with
    | (.ok output, _) => ⟨output, 1⟩
    | (.error e, _) => ⟨"Failed to create bid: " ++ e ++ "\nOutput: ", 1⟩

/-! ## Spec-side definitions

Definitions that render the specification's wording, for comparison with
the source-side definitions above. -/

/-- The specification's address predicate, word for word: the
whitespace-trimmed string starts with the prefix `"cosmos1"` and its
length is between 39 and 45 inclusive. -/
def isValidCosmosAddressSpec (s : String) : Prop :=
  "cosmos1".toList <+: (trimSpace s).toList ∧
    39 ≤ (trimSpace s).utf8ByteSize ∧ (trimSpace s).utf8ByteSize ≤ 45

/-- The amount of the last element of `l`, or the default `d` when `l` is
empty (the specification's "last matching bid's amount, `0token` when no
bid matches"). -/
def lastAmountD (l : List Bid) (d : String) : String :=
  match l.getLast? with
  | some b => b.Amount
  | none => d

/-- Whether `strconv.Atoi` accepts the syntax of `s`: an optional sign
followed by one or more ASCII digits ("numeric"). -/
def atoiSyntaxOk (s : String) : Bool :=
  !(atoiSplit s).2.isEmpty && (atoiSplit s).2.all Char.isDigit

/-- The `AuctionDetail` the aggregation is specified to produce for one
auction: the matching bids in scan order, and the last matching bid's
amount (default `"0token"`) as the current bid amount. -/
def expectedDetail (bids : List Bid) (auction : Auction) : AuctionDetail :=
  { AuctionID := auction.ID
    Issue := auction.Issue
    Creator := auction.Creator
    Description := auction.Description
    Status := auction.Status
    Winner := auction.Winner
    CurrentBidAmount := lastAmountD (bids.filter (fun bid => bid.AuctionID == auction.ID)) "0token"
    Bids := (bids.filter (fun bid => bid.AuctionID == auction.ID)).map
        (fun bid => ⟨bid.Bidder, bid.Amount, bid.Description⟩) }

/-- Reference recursion: the records the fetch loop collects starting at
page index `i` with `fuel` loop iterations available. -/
def pagesCollected (pages : Nat → PageResult) : Nat → Nat → List RawObj
  | _, 0 => []
  | i, fuel + 1 =>
      if (pages (pageLimit * i)).continues then
        (pages (pageLimit * i)).objs ++ pagesCollected pages (i + 1) fuel
      else []

/-- Reference recursion: the page offsets the fetch loop requests starting
at page index `i` with `fuel` loop iterations available (the offset whose
page stops the loop is still requested). -/
def pagesRequested (pages : Nat → PageResult) : Nat → Nat → List Nat
  | _, 0 => []
  | i, fuel + 1 =>
      if (pages (pageLimit * i)).continues then
        pageLimit * i :: pagesRequested pages (i + 1) fuel
      else [pageLimit * i]

/-! ## Theorems -/

/-- The fetch loop stops without a request when the page ceiling is
reached. -/
theorem fetchLoop_out_of_fuel (pages : Nat → PageResult) (offset : Nat) (acc : List RawObj)
    (trace : List Nat) (h : ¬ offset / pageLimit < maxPages) :
    fetchLoop pages offset acc trace = (acc, trace) := by
  rw [fetchLoop]
  simp [h]

/-- The fetch loop requests one more page and stops when that page does
not let it continue. -/
theorem fetchLoop_halts (pages : Nat → PageResult) (offset : Nat) (acc : List RawObj)
    (trace : List Nat) (h : offset / pageLimit < maxPages)
    (hp : (pages offset).continues = false) :
    fetchLoop pages offset acc trace = (acc, trace ++ [offset]) := by
  rw [fetchLoop]
  rw [dif_pos h]
  cases hpo : pages offset with
  | cmdErr => rfl
  | malformed => rfl
  | doc results =>
      cases results with
      | none => rfl
      | some l =>
          rw [hpo] at hp
          cases l with
          | nil => simp
          | cons e es => simp [PageResult.continues] at hp

/-- The fetch loop requests one more page and continues when that page
lets it. -/
theorem fetchLoop_continues (pages : Nat → PageResult) (offset : Nat) (acc : List RawObj)
    (trace : List Nat) (h : offset / pageLimit < maxPages)
    (hp : (pages offset).continues = true) :
    fetchLoop pages offset acc trace =
      fetchLoop pages (offset + pageLimit) (acc ++ (pages offset).objs) (trace ++ [offset]) := by
  conv_lhs => rw [fetchLoop]
  rw [dif_pos h]
  cases hpo : pages offset with
  | cmdErr => rw [hpo] at hp; simp [PageResult.continues] at hp
  | malformed => rw [hpo] at hp; simp [PageResult.continues] at hp
  | doc results =>
      cases results with
      | none => rw [hpo] at hp; simp [PageResult.continues] at hp
      | some l =>
          rw [hpo] at hp
          cases l with
          | nil => simp [PageResult.continues] at hp
          | cons e es => simp [PageResult.objs]

/-- The fetch loop, started at page index `i` with `fuel = maxPages - i`
iterations available, appends exactly the reference recursions' records
and offsets. -/
theorem fetchLoop_eq_reference (pages : Nat → PageResult) :
    ∀ (fuel i : Nat), i + fuel = maxPages →
      ∀ (acc : List RawObj) (trace : List Nat),
      fetchLoop pages (pageLimit * i) acc trace =
        (acc ++ pagesCollected pages i fuel, trace ++ pagesRequested pages i fuel) := by
  intro fuel
  induction fuel with
  | zero =>
      intro i hi acc trace
      rw [fetchLoop_out_of_fuel]
      · simp [pagesCollected, pagesRequested]
      · simp only [pageLimit, maxPages] at *
        omega
  | succ fuel ih =>
      intro i hi acc trace
      have hlt : (pageLimit * i) / pageLimit < maxPages := by
        simp only [pageLimit, maxPages] at *
        omega
      by_cases hc : (pages (pageLimit * i)).continues = true
      · rw [fetchLoop_continues pages _ acc trace hlt hc]
        rw [show pageLimit * i + pageLimit = pageLimit * (i + 1) by ring]
        rw [ih (i + 1) (by omega)]
        simp [pagesCollected, pagesRequested, hc]
      · rw [fetchLoop_halts pages _ acc trace hlt (by simpa using hc)]
        simp [pagesCollected, pagesRequested, hc]

/-- The instrumented fetch equals the reference recursions from page 0
with the full page budget. -/
theorem fetchPaginatedDataT_eq (pages : Nat → PageResult) :
    fetchPaginatedDataT pages =
      (pagesCollected pages 0 maxPages, pagesRequested pages 0 maxPages) := by
  have h := fetchLoop_eq_reference pages maxPages 0 (by omega) [] []
  simpa [fetchPaginatedDataT] using h

/-- The loop never requests more offsets than it has fuel. -/
theorem pagesRequested_length_le (pages : Nat → PageResult) :
    ∀ (fuel i : Nat), (pagesRequested pages i fuel).length ≤ fuel := by
  intro fuel
  induction fuel with
  | zero => intro i; simp [pagesRequested]
  | succ fuel ih =>
      intro i
      by_cases hc : (pages (pageLimit * i)).continues = true
      · simpa [pagesRequested, hc] using ih (i + 1)
      · simp [pagesRequested, hc]

/-- The requested offsets are consecutive multiples of the page size
starting at the start index. -/
theorem pagesRequested_shape (pages : Nat → PageResult) :
    ∀ (fuel i : Nat),
      pagesRequested pages i fuel =
        (List.range (pagesRequested pages i fuel).length).map
          (fun j => pageLimit * (i + j)) := by
  intro fuel
  induction fuel with
  | zero => intro i; simp [pagesRequested]
  | succ fuel ih =>
      intro i
      by_cases hc : (pages (pageLimit * i)).continues = true
      · simp only [pagesRequested, hc, if_true, List.length_cons]
        conv_lhs => rw [ih (i + 1)]
        rw [List.range_succ_eq_map]
        simp only [List.map_cons, List.map_map, List.length_map, List.length_range,
          Nat.add_zero]
        refine congrArg (fun l => pageLimit * i :: l) ?_
        refine List.map_congr_left (fun j _ => ?_)
        simp only [Function.comp_apply, Nat.succ_eq_add_one]
        ring
      · simp [pagesRequested, hc, List.range_succ]

/-- When the pages before index `i+j` all continue and the page at index
`i+j` does not (with `j` inside the fuel), the loop requests exactly the
offsets up to and including the stopping page, and collects exactly the
continuing pages' records. -/
theorem pagesReference_firstStop (pages : Nat → PageResult) :
    ∀ (j fuel i : Nat), j < fuel →
      (∀ jj, jj < j → (pages (pageLimit * (i + jj))).continues = true) →
      (pages (pageLimit * (i + j))).continues = false →
      pagesRequested pages i fuel =
        (List.range (j + 1)).map (fun jj => pageLimit * (i + jj)) ∧
      pagesCollected pages i fuel =
        ((List.range j).map (fun jj => (pages (pageLimit * (i + jj))).objs)).flatten := by
  intro j
  induction j with
  | zero =>
      intro fuel i hj hgood hbad
      cases fuel with
      | zero => omega
      | succ fuel =>
          rw [show i + 0 = i from rfl] at hbad
          constructor
          · simp [pagesRequested, hbad, List.range_succ]
          · simp [pagesCollected, hbad]
  | succ j ihj =>
      intro fuel i hj hgood hbad
      cases fuel with
      | zero => omega
      | succ fuel =>
          have hc0 : (pages (pageLimit * i)).continues = true := by
            have h := hgood 0 (by omega)
            simpa using h
          have hgood' : ∀ jj, jj < j → (pages (pageLimit * ((i + 1) + jj))).continues = true := by
            intro jj hjj
            have h := hgood (jj + 1) (by omega)
            rwa [show i + (jj + 1) = (i + 1) + jj by omega] at h
          have hbad' : (pages (pageLimit * ((i + 1) + j))).continues = false := by
            rwa [show i + (j + 1) = (i + 1) + j by omega] at hbad
          obtain ⟨h1, h2⟩ := ihj fuel (i + 1) (by omega) hgood' hbad'
          constructor
          · simp only [pagesRequested, hc0, if_true]
            rw [h1]
            conv_rhs => rw [List.range_succ_eq_map]
            simp only [List.map_cons, List.map_map, Nat.add_zero]
            refine congrArg (fun l => pageLimit * i :: l) ?_
            refine List.map_congr_left (fun jj _ => ?_)
            simp only [Function.comp_apply, Nat.succ_eq_add_one]
            ring
          · simp only [pagesCollected, hc0, if_true]
            rw [h2, List.range_succ_eq_map]
            simp only [List.map_cons, List.map_map, List.flatten_cons, Nat.add_zero]
            refine congrArg (fun l => (pages (pageLimit * i)).objs ++ l) ?_
            refine congrArg List.flatten ?_
            refine List.map_congr_left (fun jj _ => ?_)
            simp only [Function.comp_apply, Nat.succ_eq_add_one]
            rw [show i + (jj + 1) = (i + 1) + jj by omega]

/-- When every page inside the fuel continues, the loop collects all their
records and requests every offset. -/
theorem pagesReference_allContinue (pages : Nat → PageResult) :
    ∀ (fuel i : Nat),
      (∀ j, j < fuel → (pages (pageLimit * (i + j))).continues = true) →
      pagesCollected pages i fuel =
        ((List.range fuel).map (fun j => (pages (pageLimit * (i + j))).objs)).flatten ∧
      (pagesRequested pages i fuel).length = fuel := by
  intro fuel
  induction fuel with
  | zero => intro i _; simp [pagesCollected, pagesRequested]
  | succ fuel ih =>
      intro i hgood
      have hc0 : (pages (pageLimit * i)).continues = true := by
        have h := hgood 0 (by omega)
        simpa using h
      have hgood' : ∀ j, j < fuel → (pages (pageLimit * ((i + 1) + j))).continues = true := by
        intro j hj
        have h := hgood (j + 1) (by omega)
        rwa [show i + (j + 1) = (i + 1) + j by omega] at h
      obtain ⟨h1, h2⟩ := ih (i + 1) hgood'
      constructor
      · simp only [pagesCollected, hc0, if_true]
        rw [h1, List.range_succ_eq_map]
        simp only [List.map_cons, List.map_map, List.flatten_cons, Nat.add_zero]
        refine congrArg (fun l => (pages (pageLimit * i)).objs ++ l) ?_
        refine congrArg List.flatten ?_
        refine List.map_congr_left (fun j _ => ?_)
        simp only [Function.comp_apply, Nat.succ_eq_add_one]
        rw [show i + (j + 1) = (i + 1) + j by omega]
      · simp [pagesRequested, hc0, h2]

/-- C2: the paginated fetch requests offsets 0, 50, 100, … in order, never
more than 10 of them; it stops at the first page whose result array is
absent or empty (or that otherwise fails); pages of sizes `[50,50,50,0]`
yield exactly 150 records with 4 page fetches; and a source whose first 10
pages all carry 50 records yields exactly 500 records. -/
theorem fetchPaginatedData_pagination_spec :
    (∀ pages : Nat → PageResult,
      (fetchPaginatedDataT pages).2.length ≤ 10 ∧
      (fetchPaginatedDataT pages).2 =
        (List.range (fetchPaginatedDataT pages).2.length).map (fun j => 50 * j)) ∧
    (∀ (pages : Nat → PageResult) (j : Nat), j < 10 →
      (∀ jj, jj < j → (pages (50 * jj)).continues = true) →
      (pages (50 * j)).continues = false →
      (fetchPaginatedDataT pages).2 = (List.range (j + 1)).map (fun jj => 50 * jj) ∧
      fetchPaginatedData pages =
        ((List.range j).map (fun jj => (pages (50 * jj)).objs)).flatten) ∧
    (∀ pages : Nat → PageResult,
      (∀ j, j < 3 → (pages (50 * j)).continues = true ∧ ((pages (50 * j)).objs).length = 50) →
      pages 150 = .doc (some []) →
      (fetchPaginatedData pages).length = 150 ∧ (fetchPaginatedDataT pages).2.length = 4) ∧
    (∀ pages : Nat → PageResult,
      (∀ j, j < 10 → (pages (50 * j)).continues = true ∧ ((pages (50 * j)).objs).length = 50) →
      (fetchPaginatedData pages).length = 500) := by
  have hshape : ∀ pages : Nat → PageResult,
      (fetchPaginatedDataT pages).2.length ≤ 10 ∧
      (fetchPaginatedDataT pages).2 =
        (List.range (fetchPaginatedDataT pages).2.length).map (fun j => 50 * j) := by
    intro pages
    rw [fetchPaginatedDataT_eq]
    constructor
    · simpa [maxPages] using pagesRequested_length_le pages maxPages 0
    · have h := pagesRequested_shape pages maxPages 0
      simpa [pageLimit] using h
  have hstop : ∀ (pages : Nat → PageResult) (j : Nat), j < 10 →
      (∀ jj, jj < j → (pages (50 * jj)).continues = true) →
      (pages (50 * j)).continues = false →
      (fetchPaginatedDataT pages).2 = (List.range (j + 1)).map (fun jj => 50 * jj) ∧
      fetchPaginatedData pages =
        ((List.range j).map (fun jj => (pages (50 * jj)).objs)).flatten := by
    intro pages j hj hgood hbad
    have h := pagesReference_firstStop pages j maxPages 0
      (by simpa [maxPages] using hj)
      (by intro jj hjj; simpa [pageLimit] using hgood jj hjj)
      (by simpa [pageLimit] using hbad)
    rw [fetchPaginatedDataT_eq]
    constructor
    · simpa [pageLimit] using h.1
    · rw [fetchPaginatedData, fetchPaginatedDataT_eq]
      simpa [pageLimit] using h.2
  refine ⟨hshape, hstop, fun pages hp hempty => ?_, fun pages hp => ?_⟩
  · have hbad : (pages (50 * 3)).continues = false := by
      rw [show (50 : Nat) * 3 = 150 from rfl, hempty]
      rfl
    obtain ⟨h1, h2⟩ := hstop pages 3 (by omega) (fun jj hjj => (hp jj hjj).1) hbad
    have e0 := (hp 0 (by omega)).2
    have e1 := (hp 1 (by omega)).2
    have e2 := (hp 2 (by omega)).2
    norm_num at e0 e1 e2
    constructor
    · rw [h2, show List.range 3 = [0, 1, 2] from rfl]
      simp [List.flatten, e0, e1, e2]
    · rw [h1]
      simp
  · obtain ⟨h1, _⟩ := pagesReference_allContinue pages maxPages 0 (by
      intro j hj
      have hm : j < 10 := by simpa [maxPages] using hj
      simpa [pageLimit] using (hp j hm).1)
    have e0 := (hp 0 (by omega)).2
    have e1 := (hp 1 (by omega)).2
    have e2 := (hp 2 (by omega)).2
    have e3 := (hp 3 (by omega)).2
    have e4 := (hp 4 (by omega)).2
    have e5 := (hp 5 (by omega)).2
    have e6 := (hp 6 (by omega)).2
    have e7 := (hp 7 (by omega)).2
    have e8 := (hp 8 (by omega)).2
    have e9 := (hp 9 (by omega)).2
    norm_num at e0 e1 e2 e3 e4 e5 e6 e7 e8 e9
    rw [fetchPaginatedData, fetchPaginatedDataT_eq]
    show (pagesCollected pages 0 maxPages).length = 500
    rw [h1, show (maxPages : Nat) = 10 from rfl,
      show List.range 10 = [0, 1, 2, 3, 4, 5, 6, 7, 8, 9] from rfl]
    simp [pageLimit, List.flatten, e0, e1, e2, e3, e4, e5, e6, e7, e8, e9]

/-- C4: when the pages before page `n` all continue and page `n` fails
with a command error or undecodable output, the fetch returns exactly the
records accumulated from the earlier pages — an ordinary value, not an
error — after `n + 1` page requests. -/
theorem fetchPaginatedData_partial_on_error (pages : Nat → PageResult) (n : Nat)
    (hn : n < 10)
    (hgood : ∀ j, j < n → (pages (50 * j)).continues = true)
    (hfail : pages (50 * n) = .cmdErr ∨ pages (50 * n) = .malformed) :
    fetchPaginatedData pages =
      ((List.range n).map (fun j => (pages (50 * j)).objs)).flatten ∧
    (fetchPaginatedDataT pages).2.length = n + 1 := by
  have hbad : (pages (50 * n)).continues = false := by
    rcases hfail with h | h <;> rw [h] <;> rfl
  have h := pagesReference_firstStop pages n maxPages 0
    (by simpa [maxPages] using hn)
    (by intro jj hjj; simpa [pageLimit] using hgood jj hjj)
    (by simpa [pageLimit] using hbad)
  constructor
  · rw [fetchPaginatedData, fetchPaginatedDataT_eq]
    simpa [pageLimit] using h.2
  · rw [fetchPaginatedDataT_eq]
    have h1 := h.1
    simp [h1]

/-- Witness for C4: one full page of a single record followed by a
command error returns that record after two page requests. -/
theorem fetchPaginatedData_partial_on_error_witness :
    fetchPaginatedData
        (fun offset =>
          if offset = 0 then .doc (some [.obj [("id", GoVal.vstr "1")]]) else .cmdErr) =
      [[("id", GoVal.vstr "1")]] ∧
    (fetchPaginatedDataT
        (fun offset =>
          if offset = 0 then .doc (some [.obj [("id", GoVal.vstr "1")]]) else .cmdErr)).2.length =
      2 := by
  have h := fetchPaginatedData_partial_on_error
    (fun offset =>
      if offset = 0 then .doc (some [.obj [("id", GoVal.vstr "1")]]) else .cmdErr)
    1 (by omega)
    (by
      intro j hj
      have hj0 : j = 0 := by omega
      subst hj0
      rfl)
    (Or.inl rfl)
  refine ⟨?_, h.2⟩
  rw [h.1]
  rfl

/-- C9: with the external executable's output failing to decode, the
collection query paths return empty collections and no error — `getKeys`,
`fetchDenomOwners`, and `fetchPaginatedData` under an all-malformed
oracle — while the single-record lookup `getAddressForKey` returns an
explicit error. -/
theorem malformed_output_policy :
    getKeys .malformed = [] ∧
    fetchDenomOwners .malformed = [] ∧
    (∀ pages : Nat → PageResult, (∀ offset, pages offset = .malformed) →
      fetchPaginatedData pages = [] ∧ (fetchPaginatedDataT pages).2 = [0]) ∧
    getAddressForKey .malformed = .error .parseFailed := by
  refine ⟨rfl, rfl, fun pages hall => ?_, rfl⟩
  have h0 : (pages 0).continues = false := by rw [hall 0]; rfl
  have h := fetchLoop_halts pages 0 [] [] (by simp [pageLimit, maxPages]) h0
  constructor
  · rw [fetchPaginatedData, fetchPaginatedDataT, h]
  · rw [fetchPaginatedDataT, h]
    simp

/-- Recursion equation for the default-carrying last amount. -/
theorem lastAmountD_cons (b : Bid) (t : List Bid) (d : String) :
    lastAmountD (b :: t) d = lastAmountD t b.Amount := by
  cases t with
  | nil => rfl
  | cons b2 t2 =>
      simp only [lastAmountD, List.getLast?_cons_cons]
      cases e : (b2 :: t2).getLast? with
      | none => simp at e
      | some b3 => rfl

/-- Overwriting fold on a bid list computes the last element's amount. -/
theorem foldl_amount_eq_lastAmountD (l : List Bid) (d : String) :
    l.foldl (fun _ bid => bid.Amount) d = lastAmountD l d := by
  induction l generalizing d with
  | nil => rfl
  | cons b t ih => rw [List.foldl_cons, ih, lastAmountD_cons]

/-- The inner loop of the aggregation, from an arbitrary accumulator:
matching bids are appended in scan order and the running amount is
overwritten by each match. -/
theorem collectBids_foldl (auction : Auction) (bids : List Bid) (accL : List BidDetail)
    (accA : String) :
    bids.foldl
      (fun acc bid =>
        if bid.AuctionID = auction.ID then
          (acc.1 ++ [⟨bid.Bidder, bid.Amount, bid.Description⟩], bid.Amount)
        else acc)
      (accL, accA) =
    (accL ++ (bids.filter (fun bid => bid.AuctionID == auction.ID)).map
        (fun bid => ⟨bid.Bidder, bid.Amount, bid.Description⟩),
      (bids.filter (fun bid => bid.AuctionID == auction.ID)).foldl
        (fun _ bid => bid.Amount) accA) := by
  induction bids generalizing accL accA with
  | nil => simp
  | cons bid t ih =>
      by_cases h : bid.AuctionID = auction.ID
      · simp [h, List.filter_cons, ih]
      · simp [h, List.filter_cons, ih]

/-- The collected pair for one auction: the matching bids as details, and
the last matching amount with default `"0token"`. -/
theorem collectBids_eq (auction : Auction) (bids : List Bid) :
    collectBids auction bids =
      ((bids.filter (fun bid => bid.AuctionID == auction.ID)).map
          (fun bid => ⟨bid.Bidder, bid.Amount, bid.Description⟩),
        lastAmountD (bids.filter (fun bid => bid.AuctionID == auction.ID)) "0token") := by
  rw [collectBids, collectBids_foldl, foldl_amount_eq_lastAmountD]
  simp

/-- The auction details of the aggregate are the per-auction expected
details, in input order. -/
theorem buildAuctionSummaryResponse_auctions (auctions : List Auction) (bids : List Bid)
    (owners : List DenomOwner) (auctionType : String) :
    (buildAuctionSummaryResponse auctions bids owners auctionType).Auctions =
      auctions.map (expectedDetail bids) := by
  simp only [buildAuctionSummaryResponse]
  refine List.map_congr_left (fun auction _ => ?_)
  rw [collectBids_eq]
  rfl

/-- C1: in `buildAuctionSummaryResponse`, every auction of the input list
(processed in input order) gets as `CurrentBidAmount` the amount of the
last bid in the bid list (in scan order) whose auction identifier equals
the auction's, `"0token"` when no bid matches, and as `Bids` exactly the
matching bids in scan order; on the specification's example (auctions 1
and 2, bids `5token` then `9token` on auction 1) the current bid amounts
are `9token` and `0token`. -/
theorem buildAuctionSummaryResponse_join_spec :
    (∀ (auctions : List Auction) (bids : List Bid) (owners : List DenomOwner)
        (auctionType : String),
      (buildAuctionSummaryResponse auctions bids owners auctionType).Auctions =
        auctions.map (fun auction =>
          { AuctionID := auction.ID
            Issue := auction.Issue
            Creator := auction.Creator
            Description := auction.Description
            Status := auction.Status
            Winner := auction.Winner
            CurrentBidAmount :=
              lastAmountD (bids.filter (fun bid => bid.AuctionID == auction.ID)) "0token"
            Bids := (bids.filter (fun bid => bid.AuctionID == auction.ID)).map
                (fun bid => ⟨bid.Bidder, bid.Amount, bid.Description⟩) })) ∧
    ((buildAuctionSummaryResponse
        [⟨1, "", "", "open", "", ""⟩, ⟨2, "", "", "open", "", ""⟩]
        [⟨1, "5token", "", "", ""⟩, ⟨1, "9token", "", "", ""⟩]
        [] "open").Auctions.map AuctionDetail.CurrentBidAmount = ["9token", "0token"]) := by
  refine ⟨fun auctions bids owners auctionType => ?_, by decide⟩
  exact buildAuctionSummaryResponse_auctions auctions bids owners auctionType

/-- C8: the address validator accepts exactly the strings whose trimmed
form carries the `cosmos1` prefix and has byte length 39–45; a 40-byte
`cosmos1`-prefixed string passes, a 38-byte one and a non-prefixed one
fail. -/
theorem isValidCosmosAddress_iff_spec :
    (∀ s : String, isValidCosmosAddress s = true ↔ isValidCosmosAddressSpec s) ∧
    isValidCosmosAddress "cosmos1abcdefghijklmnopqrstuvwxyz0123456" = true ∧
    isValidCosmosAddress "cosmos1abcdefghijklmnopqrstuvwxyz01234" = false ∧
    isValidCosmosAddress "dosmos1abcdefghijklmnopqrstuvwxyz0123456" = false := by
  refine ⟨fun s => ?_, by decide, by decide, by decide⟩
  simp [isValidCosmosAddress, isValidCosmosAddressSpec, Bool.and_eq_true,
    decide_eq_true_eq, List.isPrefixOf_iff_prefix]
  tauto

/-- C7: the aggregate's summary sentence — `"No open auctions found."` for
mode `open` with zero auctions; the exact count sentence for mode `open`
with `N > 0` auctions of which `B` have at least one matching bid; total
auction and bid counts for mode `all`; and the specification's concrete
example (3 open auctions, 2 with bids). -/
theorem buildAuctionSummaryResponse_summary_spec :
    (∀ (bids : List Bid) (owners : List DenomOwner),
      (buildAuctionSummaryResponse [] bids owners "open").Summary =
        "No open auctions found.") ∧
    (∀ (auctions : List Auction) (bids : List Bid) (owners : List DenomOwner),
      auctions ≠ [] →
      (buildAuctionSummaryResponse auctions bids owners "open").Summary =
        "There are " ++ toString auctions.length ++ " open auctions (" ++
          toString (auctions.countP
            (fun a => decide (0 < (bids.filter (fun bid => bid.AuctionID == a.ID)).length))) ++
          " with bids, " ++
          toString (auctions.length - auctions.countP
            (fun a => decide (0 < (bids.filter (fun bid => bid.AuctionID == a.ID)).length))) ++
          " without bids).") ∧
    (∀ (auctions : List Auction) (bids : List Bid) (owners : List DenomOwner),
      (buildAuctionSummaryResponse auctions bids owners "all").Summary =
        "There are " ++ toString auctions.length ++ " total auctions with " ++
          toString bids.length ++ " total bids.") ∧
    ((buildAuctionSummaryResponse
        [⟨1, "", "", "open", "", ""⟩, ⟨2, "", "", "open", "", ""⟩, ⟨3, "", "", "open", "", ""⟩]
        [⟨1, "5token", "", "", ""⟩, ⟨2, "7token", "", "", ""⟩] [] "open").Summary =
      "There are 3 open auctions (2 with bids, 1 without bids).") := by
  refine ⟨fun bids owners => rfl, fun auctions bids owners h => ?_, fun _ _ _ => rfl, by decide⟩
  simp only [buildAuctionSummaryResponse]
  rw [if_pos trivial, if_neg (by simpa using h)]
  have hfun :
      ((fun detail => decide (0 < detail.Bids.length)) ∘
        (fun auction =>
          ({ AuctionID := auction.ID
             Issue := auction.Issue
             Creator := auction.Creator
             Description := auction.Description
             Status := auction.Status
             Winner := auction.Winner
             CurrentBidAmount := (collectBids auction bids).2
             Bids := (collectBids auction bids).1 } : AuctionDetail))) =
      fun a => decide (0 < (bids.filter (fun bid => bid.AuctionID == a.ID)).length) := by
    funext a
    simp only [Function.comp_apply, collectBids_eq, List.length_map]
  rw [List.countP_map, hfun]

/-- C10: on a successful `get-balance` invocation the summary reports only
the first balance entry (`"0"`/`"token"` when the list is empty) while the
details carry the address and the full balance list. -/
theorem getBalanceHandler_summary_firstOnly (fetch : DocResult) (address : String)
    (balances : List Balance)
    (hok : getBalanceForAddress fetch = .ok balances)
    (hne : trimSpace address ≠ "")
    (hva : isValidCosmosAddress (trimSpace address) = true) :
    getBalanceHandler fetch address = .response
      { Summary := "Address " ++ trimSpace address ++ " has " ++
          (balances.headD ⟨"token", "0"⟩).Amount ++ " " ++
          (balances.headD ⟨"token", "0"⟩).Denom
        Address := trimSpace address
        Balances := balances } := by
  simp only [getBalanceHandler, hok, hne, hva]
  cases balances with
  | nil => rfl
  | cons b t => rfl

/-- Witness for C10: a valid 39-byte address with an empty decoded balance
list produces the `"0 token"` summary and empty details. -/
theorem getBalanceHandler_summary_firstOnly_witness :
    getBalanceHandler (.doc [("balances", GoVal.varr [])])
        "cosmos1qqqqqqqqqqqqqqqqqqqqqqqqqqqqqqqqq" =
      .response
        { Summary := "Address cosmos1qqqqqqqqqqqqqqqqqqqqqqqqqqqqqqqqq has 0 token"
          Address := "cosmos1qqqqqqqqqqqqqqqqqqqqqqqqqqqqqqqqq"
          Balances := [] } :=
  getBalanceHandler_summary_firstOnly (.doc [("balances", GoVal.varr [])])
    "cosmos1qqqqqqqqqqqqqqqqqqqqqqqqqqqqqqqqq" [] rfl (by decide) (by decide)

/-- C3: when the first `k-1` attempts fail and the `k`-th succeeds
(`k ≤ 3`), `runCommand` returns the `k`-th attempt's stdout trimmed of
surrounding white space with no error, and the total sleep inserted before
the success is `1 + 2 + … + (k-1) = (k-1)k/2` seconds. -/
theorem runCommand_linearBackoff (attempts : Nat → AttemptResult) (k : Nat) (out : String)
    (hk1 : 1 ≤ k) (hk3 : k ≤ 3)
    (hfail : ∀ i, i < k - 1 → (attempts i).isFailure = true)
    (hsucc : attempts (k - 1) = .success out) :
    runCommand attempts = (.ok (trimSpace out), (k - 1) * k / 2) := by
  interval_cases k
  · simp only [Nat.sub_self] at hsucc
    simp [runCommand, runCommandLoop, hsucc, maxRetries]
  · have h0 := hfail 0 (by norm_num)
    cases ha0 : attempts 0 with
    | success o => rw [ha0] at h0; simp [AttemptResult.isFailure] at h0
    | failure m0 =>
        simp only [show (2 : Nat) - 1 = 1 from rfl] at hsucc
        simp [runCommand, runCommandLoop, ha0, hsucc, maxRetries]
  · have h0 := hfail 0 (by norm_num)
    have h1 := hfail 1 (by norm_num)
    cases ha0 : attempts 0 with
    | success o => rw [ha0] at h0; simp [AttemptResult.isFailure] at h0
    | failure m0 =>
        cases ha1 : attempts 1 with
        | success o => rw [ha1] at h1; simp [AttemptResult.isFailure] at h1
        | failure m1 =>
            simp only [show (3 : Nat) - 1 = 2 from rfl] at hsucc
            simp [runCommand, runCommandLoop, ha0, ha1, hsucc, maxRetries]

/-- Witness for C3: two failures then a success returns the third
attempt's trimmed stdout after 1 + 2 = 3 seconds of sleep. -/
theorem runCommand_linearBackoff_witness :
    runCommand (fun i => if i < 2 then .failure "boom" else .success " ok ") =
      (.ok "ok", 3) :=
  runCommand_linearBackoff (fun i => if i < 2 then .failure "boom" else .success " ok ")
    3 " ok " (by decide) (by decide) (by decide) rfl

/-- With fuel left, the loop requests at least one page. -/
theorem pagesRequested_ne_nil (pages : Nat → PageResult) (i fuel : Nat) (h : 0 < fuel) :
    pagesRequested pages i fuel ≠ [] := by
  cases fuel with
  | zero => omega
  | succ fuel =>
      by_cases hc : (pages (pageLimit * i)).continues = true <;>
        simp [pagesRequested, hc]

/-- The fetch loop always requests at least one page (the loop guard holds
at offset 0). -/
theorem fetchPaginatedDataT_trace_nonempty (pages : Nat → PageResult) :
    1 ≤ (fetchPaginatedDataT pages).2.length := by
  rw [fetchPaginatedDataT_eq]
  show 1 ≤ (pagesRequested pages 0 maxPages).length
  have h := pagesRequested_ne_nil pages 0 maxPages (by simp [maxPages])
  have hp := List.length_pos.mpr h
  omega

/-- Counterexample to C5: `query-bids-for-auction` with the non-numeric
auctionId `"abc"` does return the validation error text, but only after
performing a subprocess invocation (the bid-list page fetch), so the
claim's "issues no subprocess call" fails at this input. -/
theorem queryBids_nonNumeric_counterexample :
    (queryBidsForAuctionHandler (fun _ => PageResult.cmdErr) "abc").Result =
      .errText "Error: invalid auctionId 'abc'. Must be a number or 'all'." ∧
    (queryBidsForAuctionHandler (fun _ => PageResult.cmdErr) "abc").RunCommandCalls ≠ 0 := by
  have h : fetchPaginatedDataT (fun _ => PageResult.cmdErr) = ([], [0]) := by
    rw [fetchPaginatedDataT]
    simpa using fetchLoop_halts (fun _ => PageResult.cmdErr) 0 [] []
      (by simp [pageLimit, maxPages]) rfl
  have hq : queryBidsForAuctionHandler (fun _ => PageResult.cmdErr) "abc" =
      ⟨.errText "Error: invalid auctionId 'abc'. Must be a number or 'all'.", 1⟩ := by
    simp only [queryBidsForAuctionHandler, h]
    rfl
  rw [hq]
  exact ⟨rfl, by decide⟩

/-- C5 amended: the empty-argument check of `query-bids-for-auction` and
every validation of `create-bid` (empty arguments, address shape, numeric
auctionId) run before any subprocess invocation; but `query-bids-for-auction`
detects a non-numeric auctionId only after fetching the bid list, so that
error text is returned after at least one subprocess invocation. -/
theorem validation_before_subprocess_amended :
    (∀ (pages : Nat → PageResult) (auctionId0 : String), trimSpace auctionId0 = "" →
      queryBidsForAuctionHandler pages auctionId0 =
        ⟨.errText "Error: auctionId parameter is required. Use specific auction ID or 'all' for all bids.",
          0⟩) ∧
    (∀ (tx : AttemptResult) (params : CreateBidParams),
      (trimSpace params.AuctionId = "" ∨ trimSpace params.Bidder = "" ∨
        trimSpace params.From = "" ∨
        isValidCosmosAddress (trimSpace params.Bidder) = false ∨
        isValidCosmosAddress (trimSpace params.From) = false ∨
        (goAtoi (trimSpace params.AuctionId)).2 = false) →
      (createBidHandler tx params).RunCommandCalls = 0) ∧
    (∀ (pages : Nat → PageResult) (auctionId0 : String),
      trimSpace auctionId0 ≠ "" →
      goToLower (trimSpace auctionId0) ≠ "all" →
      (goAtoi (trimSpace auctionId0)).2 = false →
      (queryBidsForAuctionHandler pages auctionId0).Result =
        .errText ("Error: invalid auctionId '" ++ trimSpace auctionId0 ++
          "'. Must be a number or 'all'.") ∧
      1 ≤ (queryBidsForAuctionHandler pages auctionId0).RunCommandCalls) := by
  refine ⟨fun pages a h => ?_, fun tx params hv => ?_, fun pages a hne hall hbad => ?_⟩
  · simp [queryBidsForAuctionHandler, h]
  · simp only [createBidHandler]
    split
    · rfl
    split
    · rfl
    split
    · rfl
    split
    · rfl
    split
    · rfl
    split
    · rfl
    · rename_i h1 h2 h3 h4 h5 h6
      exfalso
      rcases hv with h | h | h | h | h | h <;> simp_all
  · have key : queryBidsForAuctionHandler pages a =
        ⟨.errText ("Error: invalid auctionId '" ++ trimSpace a ++
          "'. Must be a number or 'all'."), (fetchPaginatedDataT pages).2.length⟩ := by
      simp [queryBidsForAuctionHandler, hne, hall, hbad]
    rw [key]
    exact ⟨rfl, fetchPaginatedDataT_trace_nonempty pages⟩

/-- Counterexample to C6: a raw record whose `id` field is the numeral
`"-3"` parses, without any error, to the negative identifier `-3` —
`strconv.Atoi` accepts a leading minus — refuting "every Auction
identifier is a non-negative integer once parsed". -/
theorem parseAuctions_negative_id_counterexample :
    ¬ (∀ a ∈ parseAuctions [[("id", GoVal.vstr "-3")]], 0 ≤ a.ID) := by
  decide

/-- `strconv.Atoi` on non-numeric input returns zero with an error. -/
theorem goAtoi_of_syntax_err (s : String) (h : atoiSyntaxOk s = false) :
    goAtoi s = (0, false) := by
  rw [atoiSyntaxOk] at h
  rw [goAtoi]
  rw [if_pos]
  cases hb : (atoiSplit s).2.isEmpty <;>
    cases hc : (atoiSplit s).2.all Char.isDigit <;>
      simp_all

/-- `strconv.Atoi` never returns a negative value unless the input starts
with a minus sign. -/
theorem goAtoi_nonneg (s : String) (h : s.toList.head? ≠ some '-') :
    0 ≤ (goAtoi s).1 := by
  have hneg : (atoiSplit s).1 = false := by
    rw [atoiSplit]
    split
    · rfl
    · rename_i rest heq
      exfalso
      apply h
      rw [heq]
      rfl
    · rfl
  rw [goAtoi, hneg]
  split
  · simp
  · rename_i hsyn
    simp only [Bool.false_eq_true, if_false]
    split
    · rename_i hlt
      exfalso
      simp only [int64Min] at hlt
      omega
    · split
      · simp [int64Max]
      · simp

/-- C6 amended: the parsers are total — every raw record yields exactly
one typed record, never an error — a non-numeric identifier field parses
to zero, and a parsed identifier is non-negative whenever the raw field
does not start with a minus sign (a negative numeral parses to the
corresponding negative identifier, see the counterexample). -/
theorem parsers_total_amended :
    (∀ rawData : List RawObj,
      (parseAuctions rawData).length = rawData.length ∧
      (parseBids rawData).length = rawData.length) ∧
    (∀ raw : RawObj, atoiSyntaxOk (goStringify (lookupGo raw "id")) = false →
      ∀ a ∈ parseAuctions [raw], a.ID = 0) ∧
    (∀ raw : RawObj, atoiSyntaxOk (goStringify (lookupGo raw "auctionId")) = false →
      ∀ b ∈ parseBids [raw], b.AuctionID = 0) ∧
    (∀ raw : RawObj, (goStringify (lookupGo raw "id")).toList.head? ≠ some '-' →
      ∀ a ∈ parseAuctions [raw], 0 ≤ a.ID) := by
  refine ⟨fun rawData => ⟨by simp [parseAuctions], by simp [parseBids]⟩,
    fun raw h a ha => ?_, fun raw h b hb => ?_, fun raw h a ha => ?_⟩
  · simp only [parseAuctions, List.map_cons, List.map_nil, List.mem_singleton] at ha
    subst ha
    simp [goAtoi_of_syntax_err _ h]
  · simp only [parseBids, List.map_cons, List.map_nil, List.mem_singleton] at hb
    subst hb
    simp [goAtoi_of_syntax_err _ h]
  · simp only [parseAuctions, List.map_cons, List.map_nil, List.mem_singleton] at ha
    subst ha
    exact goAtoi_nonneg _ h

end Swechain
